import Mathlib

/-!
Shallow embedding of the offline-first fallback and synchronization engine
of the `agent_sovereign` repository:

* `src/agent_sovereign/offline/fallback_chain.py` — `OfflineFallbackChain`
  with its four-tier cascade (primary → cached → local → queued).
* `src/agent_sovereign/sync/orchestrator.py` — `SyncOrchestrator` with
  priority queue, delta-sync and conflict resolution.

Modelling conventions:

* Opaque Python payload values are modelled as `Value := Nat`; a Python
  object that may be `None` is `Option Value` (with `none` for `None`).
* Python `dict`s keyed by strings (or by cache keys) are modelled as
  association lists with `assocGet` / `assocSet`; `dict.get(k, default)`
  becomes `(assocGet d k).getD default`.
* Wall-clock timestamps (`datetime.datetime.now`) are modelled as an `Int`
  parameter `now` threaded into every operation that reads the clock.
* The SHA-256 digest `hashlib.sha256(str(value).encode()).hexdigest()`
  (an external library call, not repository code) is modelled as the
  injective function `compute_checksum : Option Value → Checksum` wrapping
  the value itself; `str` is injective on the modelled payload domain and
  a hex digest is never the empty string, so the Python sentinel `""`
  (meaning "no checksum recorded") is modelled as absence (`Option.none`)
  in the checksum table.
* A Python function raising is modelled by `Option`/`Except` results:
  caller-supplied tool callables return `Except String Value`, operations
  that can raise `KeyError` return `Option`, with `none` for the raise
  (a raise leaves the state unmodified, which the pure model reflects by
  returning no state).
-/

/-- Opaque payload value handled by the engine (a stand-in for an arbitrary
Python object with an injective `str` representation). -/
abbrev Value := Nat

/-- Association-list lookup, modelling `d[k]` / `k in d` on a Python dict. -/
def assocGet {κ α : Type} [DecidableEq κ] (d : List (κ × α)) (k : κ) : Option α :=
  (d.find? (fun p => p.1 = k)).map (fun p => p.2)

/-- Association-list update, modelling `d[k] = v` on a Python dict:
replaces the binding when the key is present, appends it otherwise. -/
def assocSet {κ α : Type} [DecidableEq κ] (d : List (κ × α)) (k : κ) (v : α) :
    List (κ × α) :=
  if d.any (fun p => p.1 = k) then
    d.map (fun p => if p.1 = k then (k, v) else p)
  else
    d ++ [(k, v)]

/-- Connectivity state of the fallback chain (`OnlineState` in the source). -/
inductive OnlineState where
  | ONLINE
  | OFFLINE
  deriving DecidableEq, Repr

/-- Which fallback tier served the tool call (`FallbackOutcome`). -/
inductive FallbackOutcome where
  | PRIMARY
  | CACHED
  | LOCAL
  | QUEUED
  | FAILED
  deriving DecidableEq, Repr

/-- Per-tool fallback configuration (`FallbackStrategy`). -/
structure FallbackStrategy where
  tool_name : String
  enable_cache : Bool := true
  enable_local : Bool := false
  enable_queue : Bool := true
  cache_ttl_seconds : Int := 3600
  max_queue_size : Nat := 100
  deriving DecidableEq, Repr

/-- A deferred tool call waiting to be retried (`QueuedCall`). -/
structure QueuedCall where
  tool_name : String
  args : List Value
  kwargs : List (String × Value)
  queued_at : Int
  deriving DecidableEq, Repr

/-- Result returned after the fallback chain executes (`FallbackResult`). -/
structure FallbackResult where
  outcome : FallbackOutcome
  value : Option Value
  tool_name : String
  served_at : Int
  cache_age_seconds : Option Int := none
  error : Option String := none
  deriving DecidableEq, Repr

/-- Internal cache entry for a tool response (`_CacheEntry`). -/
structure CacheEntry where
  value : Value
  stored_at : Int
  ttl_seconds : Int := 3600
  deriving DecidableEq, Repr

/-- Expiry check of `_CacheEntry.is_expired`: the age has exceeded the TTL. -/
def CacheEntry.is_expired (e : CacheEntry) (now : Int) : Bool :=
  now - e.stored_at > e.ttl_seconds

/-- Age of a cache entry in seconds (`_CacheEntry.age_seconds`). -/
def CacheEntry.age_seconds (e : CacheEntry) (now : Int) : Int :=
  now - e.stored_at

/-- Caller-supplied tool callable: takes positional and keyword arguments and
either returns a value (`Except.ok`) or raises (`Except.error`). -/
def ToolFn : Type := List Value → List (String × Value) → Except String Value

/-- Decide whether a caller-supplied callable succeeded on given arguments. -/
def exceptOk {ε α : Type} : Except ε α → Bool
  | Except.ok _ => true
  | Except.error _ => false

/-- Cache key type: the Python source builds `str((args, sorted(kwargs.items())))`;
`str` is injective on the modelled domain, so the key is modelled as the pair
itself, with the keyword items sorted. -/
abbrev CacheKey := List Value × List (String × Value)

/-- Ordering on keyword items used by Python `sorted(kwargs.items())`:
lexicographic tuple comparison, keys first, values as tiebreak. -/
def kwLe (a b : String × Value) : Prop :=
  a.1 < b.1 ∨ (a.1 = b.1 ∧ a.2 ≤ b.2)

instance : DecidableRel kwLe := fun a b => by
  unfold kwLe; infer_instance

instance : IsTotal (String × Value) kwLe where
  total a b := by
    rcases lt_trichotomy a.1 b.1 with h | h | h
    · exact Or.inl (Or.inl h)
    · rcases le_total a.2 b.2 with h2 | h2
      · exact Or.inl (Or.inr ⟨h, h2⟩)
      · exact Or.inr (Or.inr ⟨h.symm, h2⟩)
    · exact Or.inr (Or.inl h)

instance : IsTrans (String × Value) kwLe where
  trans a b c hab hbc := by
    rcases hab with h1 | ⟨h1, h1v⟩
    · rcases hbc with h2 | ⟨h2, _⟩
      · exact Or.inl (h1.trans h2)
      · exact Or.inl (h2 ▸ h1)
    · rcases hbc with h2 | ⟨h2, h2v⟩
      · exact Or.inl (h1 ▸ h2)
      · exact Or.inr ⟨h1.trans h2, h1v.trans h2v⟩

instance : IsAntisymm (String × Value) kwLe where
  antisymm a b hab hba := by
    rcases hab with h1 | ⟨h1, h1v⟩
    · rcases hba with h2 | ⟨h2, _⟩
      · exact absurd (h1.trans h2) (lt_irrefl _)
      · exact absurd h1 (h2 ▸ lt_irrefl _)
    · rcases hba with h2 | ⟨_, h2v⟩
      · exact absurd h2 (h1 ▸ lt_irrefl _)
      · exact Prod.ext h1 (le_antisymm h1v h2v)

/-- Cache key construction (`OfflineFallbackChain._make_cache_key`):
positional arguments order-preserving, keyword items key-sorted. -/
def make_cache_key (args : List Value) (kwargs : List (String × Value)) : CacheKey :=
  (args, List.insertionSort kwLe kwargs)

/-- Per-tool, per-outcome call counters (the source's
`dict[FallbackOutcome, int]` initialised with every outcome at zero). -/
structure CallCounts where
  primary : Nat := 0
  cached : Nat := 0
  localTier : Nat := 0
  queued : Nat := 0
  failed : Nat := 0
  deriving DecidableEq, Repr

/-- Full state of an `OfflineFallbackChain` instance. -/
structure OfflineFallbackChain where
  state : OnlineState
  strategies : List (String × FallbackStrategy)
  primaries : List (String × ToolFn)
  locals : List (String × ToolFn)
  caches : List (String × List (CacheKey × CacheEntry))
  queues : List (String × List QueuedCall)
  call_counts : List (String × CallCounts)

namespace OfflineFallbackChain

/-- Fresh chain (`__init__`): empty registries, given initial state. -/
def init (initial_state : OnlineState) : OfflineFallbackChain :=
  { state := initial_state, strategies := [], primaries := [], locals := [],
    caches := [], queues := [], call_counts := [] }

/-- Tool registration (`register_tool`): binds strategy and callables, and
(re)initialises the cache, the bounded queue and the per-outcome counters.
Note the source only stores `local_alt` when it is not `None`, so a
re-registration without a local alternative keeps the previous one. -/
def register_tool (c : OfflineFallbackChain) (strategy : FallbackStrategy)
    (primary : ToolFn) (local_alt : Option ToolFn) : OfflineFallbackChain :=
  let name := strategy.tool_name
  { c with
    strategies := assocSet c.strategies name strategy,
    primaries := assocSet c.primaries name primary,
    locals := match local_alt with
              | some f => assocSet c.locals name f
              | none => c.locals,
    caches := assocSet c.caches name [],
    queues := assocSet c.queues name [],
    call_counts := assocSet c.call_counts name {} }

/-- Connectivity transition (`set_state`). -/
def set_state (c : OfflineFallbackChain) (s : OnlineState) : OfflineFallbackChain :=
  { c with state := s }

/-- Counter increment (`_increment`): a silent no-op when the tool has no
counter table. -/
def increment (c : OfflineFallbackChain) (tool_name : String)
    (outcome : FallbackOutcome) : OfflineFallbackChain :=
  match assocGet c.call_counts tool_name with
  | none => c
  | some m =>
      let m' := match outcome with
                | FallbackOutcome.PRIMARY => { m with primary := m.primary + 1 }
                | FallbackOutcome.CACHED => { m with cached := m.cached + 1 }
                | FallbackOutcome.LOCAL => { m with localTier := m.localTier + 1 }
                | FallbackOutcome.QUEUED => { m with queued := m.queued + 1 }
                | FallbackOutcome.FAILED => { m with failed := m.failed + 1 }
      { c with call_counts := assocSet c.call_counts tool_name m' }

/-- Primary tier (`_try_primary`): invoke the primary callable; on success
store the value in the cache (when caching is enabled) and count a PRIMARY
outcome; any raise inside the `try` block — the callable itself or the
cache-table access — is caught and yields `none` with the chain unchanged. -/
def try_primary (c : OfflineFallbackChain) (now : Int) (tool_name : String)
    (strategy : FallbackStrategy) (cache_key : CacheKey)
    (args : List Value) (kwargs : List (String × Value)) :
    OfflineFallbackChain × Option FallbackResult :=
  match assocGet c.primaries tool_name with
  | none => (c, none)
  | some f =>
    match f args kwargs with
    | Except.error _ => (c, none)
    | Except.ok value =>
      if strategy.enable_cache then
        match assocGet c.caches tool_name with
        | none => (c, none)
        | some cache =>
          let entry : CacheEntry :=
            { value := value, stored_at := now,
              ttl_seconds := strategy.cache_ttl_seconds }
          let c1 := { c with
            caches := assocSet c.caches tool_name (assocSet cache cache_key entry) }
          (increment c1 tool_name FallbackOutcome.PRIMARY,
           some { outcome := FallbackOutcome.PRIMARY, value := some value,
                  tool_name := tool_name, served_at := now })
      else
        (increment c tool_name FallbackOutcome.PRIMARY,
         some { outcome := FallbackOutcome.PRIMARY, value := some value,
                tool_name := tool_name, served_at := now })

/-- Cached tier (`_try_cache`): serve an unexpired entry (counting a CACHED
outcome with the entry's age); evict an expired entry and decline. -/
def try_cache (c : OfflineFallbackChain) (now : Int) (tool_name : String)
    (cache_key : CacheKey) : OfflineFallbackChain × Option FallbackResult :=
  let cache := (assocGet c.caches tool_name).getD []
  match assocGet cache cache_key with
  | none => (c, none)
  | some entry =>
    if entry.is_expired now then
      let cache' := cache.filter (fun p => ¬(p.1 = cache_key))
      ({ c with caches := assocSet c.caches tool_name cache' }, none)
    else
      (increment c tool_name FallbackOutcome.CACHED,
       some { outcome := FallbackOutcome.CACHED, value := some entry.value,
              tool_name := tool_name, served_at := now,
              cache_age_seconds := some (entry.age_seconds now) })

/-- Local tier (`_try_local`): invoke the registered local alternative; a
raise is caught and yields `none` with the chain unchanged. -/
def try_local (c : OfflineFallbackChain) (now : Int) (tool_name : String)
    (args : List Value) (kwargs : List (String × Value)) :
    OfflineFallbackChain × Option FallbackResult :=
  match assocGet c.locals tool_name with
  | none => (c, none)
  | some f =>
    match f args kwargs with
    | Except.error _ => (c, none)
    | Except.ok value =>
      (increment c tool_name FallbackOutcome.LOCAL,
       some { outcome := FallbackOutcome.LOCAL, value := some value,
              tool_name := tool_name, served_at := now })

/-- Queue tier (`_queue_call`): append a `QueuedCall`; the deque's `maxlen`
evicts the oldest entry when the queue is at capacity.  The direct
`self._queues[tool_name]` access raises `KeyError` (modelled as `none`)
when the tool has no queue table. -/
def queue_call (c : OfflineFallbackChain) (now : Int) (tool_name : String)
    (strategy : FallbackStrategy) (args : List Value)
    (kwargs : List (String × Value)) :
    Option (OfflineFallbackChain × FallbackResult) :=
  match assocGet c.queues tool_name with
  | none => none
  | some queue =>
    let queued : QueuedCall :=
      { tool_name := tool_name, args := args, kwargs := kwargs, queued_at := now }
    let queue' :=
      if queue.length ≥ strategy.max_queue_size ∧ 0 < strategy.max_queue_size then
        queue.drop (queue.length + 1 - strategy.max_queue_size) ++ [queued]
      else if strategy.max_queue_size = 0 then queue
      else queue ++ [queued]
    let c1 := { c with queues := assocSet c.queues tool_name queue' }
    some (increment c1 tool_name FallbackOutcome.QUEUED,
          { outcome := FallbackOutcome.QUEUED, value := none,
            tool_name := tool_name, served_at := now })

/-- Terminal failure (`_failed_result`): count a FAILED outcome and report
the error as data. -/
def failed_result (c : OfflineFallbackChain) (now : Int) (tool_name : String)
    (error : String) : OfflineFallbackChain × FallbackResult :=
  (increment c tool_name FallbackOutcome.FAILED,
   { outcome := FallbackOutcome.FAILED, value := none, tool_name := tool_name,
     served_at := now, error := some error })

/-- Cascade below the primary tier (the source's "Offline or primary failed
— cascade" section of `call`): cache when enabled, then the local
alternative when enabled and registered, then the queue when enabled,
otherwise the FAILED outcome. -/
def cascade (c : OfflineFallbackChain) (now : Int) (tool_name : String)
    (strategy : FallbackStrategy) (cache_key : CacheKey)
    (args : List Value) (kwargs : List (String × Value)) :
    Option (OfflineFallbackChain × FallbackResult) :=
  match (if strategy.enable_cache then try_cache c now tool_name cache_key
         else (c, none)) with
  | (c2, some res) => some (c2, res)
  | (c2, none) =>
    match (if strategy.enable_local ∧ (assocGet c2.locals tool_name).isSome
           then try_local c2 now tool_name args kwargs
           else (c2, none)) with
    | (c3, some res) => some (c3, res)
    | (c3, none) =>
      if strategy.enable_queue then
        queue_call c3 now tool_name strategy args kwargs
      else
        some (failed_result c3 now tool_name "All fallback tiers exhausted")

/-- Tool-call entry point (`call`): raises `KeyError` (modelled `none`) for
an unregistered tool, otherwise tries the primary when ONLINE and then
cascades through cache → local → queue, returning FAILED only when every
enabled tier has been exhausted. -/
def call (c : OfflineFallbackChain) (now : Int) (tool_name : String)
    (args : List Value) (kwargs : List (String × Value)) :
    Option (OfflineFallbackChain × FallbackResult) :=
  match assocGet c.strategies tool_name with
  | none => none
  | some strategy =>
    let cache_key := make_cache_key args kwargs
    match (if c.state = OnlineState.ONLINE then
             try_primary c now tool_name strategy cache_key args kwargs
           else (c, none)) with
    | (c1, some res) => some (c1, res)
    | (c1, none) => cascade c1 now tool_name strategy cache_key args kwargs

/-- FIFO replay loop of `flush_queue`: re-invoke `call` for each drained
call, in order; an inner `KeyError` propagates (`none`). -/
def replay (c : OfflineFallbackChain) (now : Int) (tool_name : String) :
    List QueuedCall → Option (OfflineFallbackChain × List FallbackResult)
  | [] => some (c, [])
  | qc :: rest =>
    match call c now tool_name qc.args qc.kwargs with
    | none => none
    | some (c', r) =>
      match replay c' now tool_name rest with
      | none => none
      | some (c'', rs) => some (c'', r :: rs)

/-- Queue flush (`flush_queue`): returns `[]` untouched for a tool with no
queue table; otherwise drains the queue completely (the `while queue:
popleft` loop) and only then replays the drained snapshot, so calls
re-queued during the flush are never processed within the same flush. -/
def flush_queue (c : OfflineFallbackChain) (now : Int) (tool_name : String) :
    Option (OfflineFallbackChain × List FallbackResult) :=
  match assocGet c.queues tool_name with
  | none => some (c, [])
  | some queue =>
    let c1 := { c with queues := assocSet c.queues tool_name [] }
    replay c1 now tool_name queue

/-- Queue size (`get_queue_size`): `len(self._queues.get(tool_name, []))`. -/
def get_queue_size (c : OfflineFallbackChain) (tool_name : String) : Nat :=
  ((assocGet c.queues tool_name).getD []).length

/-- Call statistics (`get_call_stats`): maps outcome names to counts;
the empty mapping for a tool with no counter table. -/
def get_call_stats (c : OfflineFallbackChain) (tool_name : String) :
    List (String × Nat) :=
  match assocGet c.call_counts tool_name with
  | none => []
  | some m =>
      [("primary", m.primary), ("cached", m.cached), ("local", m.localTier),
       ("queued", m.queued), ("failed", m.failed)]

end OfflineFallbackChain

/-- Sync priority tier (`SyncPriority`): lower numeric value means higher
priority. -/
inductive SyncPriority where
  | CRITICAL
  | HIGH
  | NORMAL
  | LOW
  deriving DecidableEq, Repr

/-- Numeric value of a priority (`SyncPriority.value`). -/
def SyncPriority.val : SyncPriority → Nat
  | SyncPriority.CRITICAL => 0
  | SyncPriority.HIGH => 1
  | SyncPriority.NORMAL => 2
  | SyncPriority.LOW => 3

/-- Status of a sync item (`SyncStatus`). -/
inductive SyncStatus where
  | PENDING
  | IN_FLIGHT
  | SYNCED
  | CONFLICT
  | FAILED
  | SKIPPED
  deriving DecidableEq, Repr

/-- Strategy for resolving sync conflicts (`ConflictResolution`).  As a
Python `str` enum every member is truthy, so the `or default` fallbacks in
the source never fire and are dropped from the model. -/
inductive ConflictResolution where
  | LAST_WRITE_WINS
  | MANUAL
  | LOCAL_WINS
  | REMOTE_WINS
  deriving DecidableEq, Repr

/-- Content fingerprint: models `hashlib.sha256(str(value).encode()).hexdigest()`
(an external library call) as an injective digest of the value; the digest of
Python `None` (`str(None) = "None"`) is `⟨none⟩`, distinct from every real
payload's digest. -/
structure Checksum where
  digest : Option Value
  deriving DecidableEq, Repr

/-- Digest computation (`SyncItem._compute_checksum`). -/
def compute_checksum (value : Option Value) : Checksum :=
  { digest := value }

/-- A single item to be synchronised (`SyncItem`).  `remote_value = none`
models Python `None` (no known remote value). -/
structure SyncItem where
  item_id : String
  key : String
  local_value : Value
  priority : SyncPriority := SyncPriority.NORMAL
  remote_value : Option Value := none
  local_modified_at : Int
  remote_modified_at : Option Int := none
  status : SyncStatus := SyncStatus.PENDING
  conflict_resolution : ConflictResolution := ConflictResolution.LAST_WRITE_WINS
  local_checksum : Checksum
  synced_at : Option Int := none
  error : Option String := none
  deriving DecidableEq, Repr

/-- Delta-sync comparison (`SyncItem.has_changed`). -/
def SyncItem.has_changed (item : SyncItem) (previous_checksum : Checksum) : Bool :=
  item.local_checksum ≠ previous_checksum

/-- Construction with the `__post_init__` invariant: the local checksum is
computed from the local value. -/
def mkSyncItem (item_id key : String) (local_value : Value)
    (priority : SyncPriority) (remote_value : Option Value)
    (local_modified_at : Int) (remote_modified_at : Option Int)
    (conflict_resolution : ConflictResolution) : SyncItem :=
  { item_id := item_id, key := key, local_value := local_value,
    priority := priority, remote_value := remote_value,
    local_modified_at := local_modified_at,
    remote_modified_at := remote_modified_at,
    conflict_resolution := conflict_resolution,
    local_checksum := compute_checksum (some local_value) }

/-- Outcome of a single sync attempt (`SyncResult`). -/
structure SyncResult where
  item_id : String
  key : String
  status : SyncStatus
  conflict_resolved_value : Option Value := none
  synced_at : Int
  error : Option String := none
  deriving DecidableEq, Repr

/-- Full state of a `SyncOrchestrator` instance. -/
structure SyncOrchestrator where
  default_conflict : ConflictResolution := ConflictResolution.LAST_WRITE_WINS
  queue : List SyncItem := []
  checksums : List (String × Checksum) := []
  history : List SyncResult := []
  manual_conflicts : List SyncItem := []
  deriving DecidableEq, Repr

namespace SyncOrchestrator

/-- In-place mutation of a shared `SyncItem` object: the same object may be
referenced from the queue and the manual-conflict list, so mutating it is
modelled as replacing every entry carrying its (unique) id. -/
def update_item (q : List SyncItem) (item : SyncItem) : List SyncItem :=
  q.map (fun j => if j.item_id = item.item_id then item else j)

/-- Enqueue (`enqueue`): appends to the pending queue.  The source's
`if not item.conflict_resolution` default never fires (a `str` enum member
is always truthy), so the item is appended unchanged. -/
def enqueue (c : SyncOrchestrator) (item : SyncItem) : SyncOrchestrator :=
  { c with queue := c.queue ++ [item] }

/-- Batch enqueue (`enqueue_batch`). -/
def enqueue_batch (c : SyncOrchestrator) (items : List SyncItem) : SyncOrchestrator :=
  items.foldl enqueue c

/-- Number of items currently pending (`queue_size`). -/
def queue_size (c : SyncOrchestrator) : Nat :=
  (c.queue.filter (fun i => i.status = SyncStatus.PENDING)).length

/-- Stable priority order used by `get_pending`'s `sorted(key=priority.value)`. -/
def priLe (i j : SyncItem) : Prop := i.priority.val ≤ j.priority.val

instance : DecidableRel priLe := fun i j => by
  unfold priLe; infer_instance

/-- Pending view (`get_pending`): items with status PENDING sorted by
priority value, CRITICAL first; the sort is stable so ties preserve
insertion order. -/
def get_pending (c : SyncOrchestrator) : List SyncItem :=
  List.insertionSort priLe (c.queue.filter (fun i => i.status = SyncStatus.PENDING))

/-- Manual-conflict view (`get_manual_conflicts`). -/
def get_manual_conflicts (c : SyncOrchestrator) : List SyncItem :=
  c.manual_conflicts

/-- Delta-sync test of `_sync_item`: a last-synced checksum is recorded for
the key (the Python `""` default is falsy, and a SHA-256 hex digest is never
empty, so `if last_checksum` means exactly "present") and the item's
checksum equals it. -/
def delta_skip (c : SyncOrchestrator) (item : SyncItem) : Bool :=
  match assocGet c.checksums item.key with
  | some last => !(item.has_changed last)
  | none => false

/-- Shared tail of the three automatic branches of `_handle_conflict`:
record the winning checksum, mark the item SYNCED and emit the result. -/
def record_synced (c : SyncOrchestrator) (now : Int) (item : SyncItem)
    (winning_value : Option Value) (winning_checksum : Checksum) :
    SyncOrchestrator × SyncResult :=
  let item' := { item with status := SyncStatus.SYNCED, synced_at := some now }
  ({ c with checksums := assocSet c.checksums item.key winning_checksum,
            queue := update_item c.queue item' },
   { item_id := item.item_id, key := item.key, status := SyncStatus.SYNCED,
     conflict_resolved_value := winning_value, synced_at := now })

/-- Conflict resolution (`_handle_conflict`): `none` when no real conflict
exists (equal timestamps with identical content), otherwise dispatch on the
item's strategy. -/
def handle_conflict (c : SyncOrchestrator) (now : Int) (item : SyncItem) :
    Option (SyncOrchestrator × SyncResult) :=
  let local_ts := item.local_modified_at
  let remote_ts := item.remote_modified_at
  if remote_ts = some local_ts ∧
      item.local_checksum = compute_checksum item.remote_value then
    none
  else
    match item.conflict_resolution with
    | ConflictResolution.LAST_WRITE_WINS =>
        let winning : Option Value :=
          match remote_ts with
          | some rts => if local_ts < rts then item.remote_value
                        else some item.local_value
          | none => some item.local_value
        some (record_synced c now item winning (compute_checksum winning))
    | ConflictResolution.LOCAL_WINS =>
        some (record_synced c now item (some item.local_value) item.local_checksum)
    | ConflictResolution.REMOTE_WINS =>
        some (record_synced c now item item.remote_value
          (compute_checksum item.remote_value))
    | ConflictResolution.MANUAL =>
        let item' := { item with status := SyncStatus.CONFLICT }
        some ({ c with queue := update_item c.queue item',
                       manual_conflicts := c.manual_conflicts ++ [item'] },
              { item_id := item.item_id, key := item.key,
                status := SyncStatus.CONFLICT, synced_at := now })

/-- No-conflict tail of `_sync_item`: accept the local value, record its
checksum and mark the item SYNCED. -/
def accept_local (c : SyncOrchestrator) (now : Int) (item : SyncItem) :
    SyncOrchestrator × SyncResult :=
  let item' := { item with status := SyncStatus.SYNCED, synced_at := some now }
  ({ c with checksums := assocSet c.checksums item.key item.local_checksum,
            queue := update_item c.queue item' },
   { item_id := item.item_id, key := item.key, status := SyncStatus.SYNCED,
     conflict_resolved_value := some item.local_value, synced_at := now })

/-- Single-item pipeline (`_sync_item`): delta-sync shortcut, then conflict
detection (remote value and remote timestamp both present), then conflict
resolution or local acceptance.  The transient IN_FLIGHT status is
overwritten by a terminal status on every path before the state is
observable again, so the model records only the terminal status. -/
def sync_item (c : SyncOrchestrator) (now : Int) (item : SyncItem) :
    SyncOrchestrator × SyncResult :=
  if delta_skip c item then
    let item' := { item with status := SyncStatus.SKIPPED }
    ({ c with queue := update_item c.queue item' },
     { item_id := item.item_id, key := item.key, status := SyncStatus.SKIPPED,
       synced_at := now })
  else
    match item.remote_value, item.remote_modified_at with
    | some _, some _ =>
        match handle_conflict c now item with
        | some res => res
        | none => accept_local c now item
    | _, _ => accept_local c now item

/-- Processing loop shared by `sync_all` and `sync_priority`: run each item
through `_sync_item` and append every result to the history. -/
def sync_run (c : SyncOrchestrator) (now : Int) :
    List SyncItem → SyncOrchestrator × List SyncResult
  | [] => (c, [])
  | item :: rest =>
    let step := sync_item c now item
    let c1 := { step.1 with history := step.1.history ++ [step.2] }
    let tail := sync_run c1 now rest
    (tail.1, step.2 :: tail.2)

/-- Full sync pass (`sync_all`): all pending items in priority order. -/
def sync_all (c : SyncOrchestrator) (now : Int) :
    SyncOrchestrator × List SyncResult :=
  sync_run c now (get_pending c)

/-- Priority-restricted pass (`sync_priority`): pending items of one tier,
in queue order. -/
def sync_priority (c : SyncOrchestrator) (now : Int) (priority : SyncPriority) :
    SyncOrchestrator × List SyncResult :=
  sync_run c now (c.queue.filter
    (fun i => i.status = SyncStatus.PENDING ∧ i.priority = priority))

/-- Removal of the item found by `resolve_manual_conflict`: Python's
`list.remove` deletes the first structurally equal element, which is the
first element carrying the id (every earlier element has a different id). -/
def remove_first_by_id (l : List SyncItem) (item_id : String) : List SyncItem :=
  match l with
  | [] => []
  | i :: rest =>
      if i.item_id = item_id then rest
      else i :: remove_first_by_id rest item_id

/-- Manual resolution (`resolve_manual_conflict`): `none` models the
`KeyError` raised when no manual conflict carries the id (the raise leaves
the orchestrator unchanged); otherwise remove the item from the side list,
record the chosen value's checksum for the key, mark the shared item object
SYNCED and append a SYNCED result to the history. -/
def resolve_manual_conflict (c : SyncOrchestrator) (now : Int)
    (item_id : String) (chosen_value : Option Value) :
    Option (SyncOrchestrator × SyncResult) :=
  match c.manual_conflicts.find? (fun i => i.item_id = item_id) with
  | none => none
  | some conflicted =>
    let conflicted' := { conflicted with status := SyncStatus.SYNCED }
    let result : SyncResult :=
      { item_id := item_id, key := conflicted.key, status := SyncStatus.SYNCED,
        conflict_resolved_value := chosen_value, synced_at := now }
    some ({ c with
            manual_conflicts := remove_first_by_id c.manual_conflicts item_id,
            checksums := assocSet c.checksums conflicted.key
              (compute_checksum chosen_value),
            queue := update_item c.queue conflicted',
            history := c.history ++ [result] },
          result)

/-- History view (`get_history`). -/
def get_history (c : SyncOrchestrator) : List SyncResult :=
  c.history

end SyncOrchestrator

/-- Lookup after an update that hit an existing key: the mapped list's first
entry with the key now carries the new value. -/
theorem find?_map_keyhit {κ α : Type} [DecidableEq κ] (d : List (κ × α))
    (k : κ) (v : α) (hd : d.any (fun p => decide (p.1 = k)) = true) :
    (d.map (fun p => if p.1 = k then (k, v) else p)).find?
      (fun p => decide (p.1 = k)) = some (k, v) := by
  induction d with
  | nil => simp at hd
  | cons p rest ih =>
    by_cases hp : p.1 = k
    · simp [hp, List.find?]
    · simp only [List.any_cons, decide_eq_true_eq, Bool.or_eq_true] at hd
      rcases hd with hd | hd
      · exact absurd hd hp
      · simp only [List.map_cons, if_neg hp, List.find?]
        rw [decide_eq_false hp]
        exact ih (by simpa using hd)

/-- Lookup of a key right after writing it (`d[k] = v; d[k] == v`). -/
theorem assocGet_assocSet_self {κ α : Type} [DecidableEq κ]
    (d : List (κ × α)) (k : κ) (v : α) :
    assocGet (assocSet d k v) k = some v := by
  unfold assocSet
  by_cases hd : d.any (fun p => decide (p.1 = k)) = true
  · rw [if_pos hd]
    unfold assocGet
    rw [find?_map_keyhit d k v hd]
    rfl
  · rw [if_neg hd]
    unfold assocGet
    induction d with
    | nil => simp [List.find?]
    | cons p rest ih =>
      simp only [List.any_cons, Bool.or_eq_true, decide_eq_true_eq] at hd
      push_neg at hd
      simp only [List.cons_append, List.find?]
      rw [decide_eq_false hd.1]
      exact ih (by simpa using hd.2)

/-- Lookup of a different key is untouched by an update. -/
theorem assocGet_assocSet_ne {κ α : Type} [DecidableEq κ]
    (d : List (κ × α)) (k k' : κ) (v : α) (h : k' ≠ k) :
    assocGet (assocSet d k v) k' = assocGet d k' := by
  unfold assocSet
  by_cases hd : d.any (fun p => decide (p.1 = k)) = true
  · rw [if_pos hd]
    unfold assocGet
    clear hd
    induction d with
    | nil => rfl
    | cons p rest ih =>
      by_cases hp : p.1 = k
      · have hne : ¬(k = k') := fun hk => h hk.symm
        simp only [List.map_cons, if_pos hp, List.find?]
        rw [decide_eq_false hne, decide_eq_false (fun hc => hne (hp ▸ hc))]
        exact ih
      · simp only [List.map_cons, if_neg hp, List.find?]
        cases hpk : decide (p.1 = k')
        · exact ih
        · rfl
  · rw [if_neg hd]
    unfold assocGet
    clear hd
    induction d with
    | nil =>
      simp only [List.nil_append, List.find?]
      rw [decide_eq_false (fun hc => h hc.symm)]
    | cons p rest ih =>
      simp only [List.cons_append, List.find?]
      cases hpk : decide (p.1 = k')
      · exact ih
      · rfl

/-- C10: for a tool name that was never registered, `flush_queue` returns the
empty list with the chain untouched, `get_queue_size` returns 0, and
`get_call_stats` returns the empty mapping — none of these raises; `call` is
the only Fallback Chain operation that raises (`KeyError`, modelled as
`none`) for an unregistered tool. -/
theorem C10_unregistered_tool (c : OfflineFallbackChain) (now : Int)
    (tool : String) (args : List Value) (kwargs : List (String × Value))
    (hs : assocGet c.strategies tool = none)
    (hq : assocGet c.queues tool = none)
    (hcc : assocGet c.call_counts tool = none) :
    c.flush_queue now tool = some (c, []) ∧
    c.get_queue_size tool = 0 ∧
    c.get_call_stats tool = [] ∧
    c.call now tool args kwargs = none := by
  refine ⟨?_, ?_, ?_, ?_⟩
  · unfold OfflineFallbackChain.flush_queue
    rw [hq]
  · unfold OfflineFallbackChain.get_queue_size
    rw [hq]
    rfl
  · unfold OfflineFallbackChain.get_call_stats
    rw [hcc]
  · unfold OfflineFallbackChain.call
    rw [hs]

/-- Witness for C10 at the freshly constructed chain and the name "ghost". -/
theorem C10_unregistered_tool_witness :
    (OfflineFallbackChain.init OnlineState.ONLINE).flush_queue 0 "ghost" =
      some (OfflineFallbackChain.init OnlineState.ONLINE, []) ∧
    (OfflineFallbackChain.init OnlineState.ONLINE).get_queue_size "ghost" = 0 ∧
    (OfflineFallbackChain.init OnlineState.ONLINE).get_call_stats "ghost" = [] ∧
    (OfflineFallbackChain.init OnlineState.ONLINE).call 0 "ghost" [3] [] = none :=
  C10_unregistered_tool (OfflineFallbackChain.init OnlineState.ONLINE) 0 "ghost"
    [3] [] rfl rfl rfl

/-- Primary callable used in the C9 re-registration scenario. -/
def c9_primary : ToolFn := fun _ _ => Except.ok 1

/-- Local alternative supplied only by the first registration in the C9
re-registration scenario. -/
def c9_local : ToolFn := fun _ _ => Except.ok 7

/-- Strategy used by both registrations in the C9 scenario. -/
def c9_strategy : FallbackStrategy :=
  { tool_name := "t", enable_local := true }

/-- Chain after registering "t" with a local alternative and then
re-registering the same name with `local_alt = None`, while OFFLINE. -/
def c9_chain : OfflineFallbackChain :=
  ((OfflineFallbackChain.init OnlineState.OFFLINE).register_tool
      c9_strategy c9_primary (some c9_local)).register_tool
    c9_strategy c9_primary none

/-- Counterexample to C9 as stated: the most recent registration of "t"
supplied no local alternative, yet the first registration's local
alternative is still bound (the source stores `local_alt` only when it is
not `None`), and an offline call is observably served by that stale local
tier. -/
theorem C9_counterexample :
    assocGet c9_chain.locals "t" = some c9_local ∧
    (c9_chain.call 0 "t" [] []).map (fun p => p.2.outcome) =
      some FallbackOutcome.LOCAL :=
  ⟨rfl, rfl⟩

/-- C9 amended: re-registration does not fail and the last registration wins
for the strategy and the primary; cache, queue and per-outcome counters are
reinitialised; the local alternative however is replaced only when the new
registration supplies one — a re-registration with `local_alt = None` keeps
the previously bound local alternative. -/
theorem C9_amended (c : OfflineFallbackChain) (s1 s2 : FallbackStrategy)
    (p1 p2 : ToolFn) (l1 : ToolFn) (l2 : Option ToolFn)
    (hname : s1.tool_name = s2.tool_name) :
    (assocGet ((c.register_tool s1 p1 (some l1)).register_tool s2 p2 l2).strategies
        s2.tool_name = some s2) ∧
    (assocGet ((c.register_tool s1 p1 (some l1)).register_tool s2 p2 l2).primaries
        s2.tool_name = some p2) ∧
    (assocGet ((c.register_tool s1 p1 (some l1)).register_tool s2 p2 l2).locals
        s2.tool_name = (match l2 with | some f => some f | none => some l1)) ∧
    (assocGet ((c.register_tool s1 p1 (some l1)).register_tool s2 p2 l2).caches
        s2.tool_name = some []) ∧
    (assocGet ((c.register_tool s1 p1 (some l1)).register_tool s2 p2 l2).queues
        s2.tool_name = some []) ∧
    (assocGet ((c.register_tool s1 p1 (some l1)).register_tool s2 p2 l2).call_counts
        s2.tool_name = some {}) := by
  unfold OfflineFallbackChain.register_tool
  refine ⟨?_, ?_, ?_, ?_, ?_, ?_⟩
  · exact assocGet_assocSet_self _ _ _
  · exact assocGet_assocSet_self _ _ _
  · cases l2 with
    | some f => exact assocGet_assocSet_self _ _ _
    | none =>
        show assocGet (assocSet c.locals s1.tool_name l1) s2.tool_name = some l1
        rw [hname]
        exact assocGet_assocSet_self _ _ _
  · exact assocGet_assocSet_self _ _ _
  · exact assocGet_assocSet_self _ _ _
  · exact assocGet_assocSet_self _ _ _

/-- Witness for C9 amended at the concrete C9 scenario. -/
theorem C9_amended_witness :
    assocGet c9_chain.strategies "t" = some c9_strategy ∧
    assocGet c9_chain.primaries "t" = some c9_primary ∧
    assocGet c9_chain.locals "t" = some c9_local ∧
    assocGet c9_chain.caches "t" = some [] ∧
    assocGet c9_chain.queues "t" = some [] ∧
    assocGet c9_chain.call_counts "t" = some {} :=
  C9_amended (OfflineFallbackChain.init OnlineState.OFFLINE)
    c9_strategy c9_strategy c9_primary c9_primary c9_local none rfl

/-- Sync item with MANUAL policy whose remote value is content-identical to
its local value (equal fingerprints) but whose timestamps differ. -/
def c2_item : SyncItem :=
  mkSyncItem "i1" "k" 5 SyncPriority.NORMAL (some 5) 0 (some 1)
    ConflictResolution.MANUAL

/-- Orchestrator holding only `c2_item`. -/
def c2_orch : SyncOrchestrator := { queue := [c2_item] }

/-- Counterexample to C2 as stated: syncing an item whose remote value is
content-identical to the local value (equal fingerprints) but whose remote
timestamp differs from the local one does run conflict resolution — under
MANUAL policy the item is marked CONFLICT and lands in the manual-conflict
list, because the source's equal-fingerprint shortcut is only reached when
the timestamps are equal. -/
theorem C2_counterexample :
    (SyncOrchestrator.sync_item c2_orch 0 c2_item).2.status =
      SyncStatus.CONFLICT ∧
    (SyncOrchestrator.sync_item c2_orch 0 c2_item).1.manual_conflicts ≠ [] :=
  ⟨rfl, by decide⟩

/-- C2 amended: when the remote value is content-identical to the local one
AND the remote timestamp equals the local timestamp, no conflict resolution
runs: the item is synced with the local value and is never marked CONFLICT
nor added to the manual-conflict list, even under MANUAL policy.  (With
differing timestamps, conflict resolution runs even for content-identical
values, as the counterexample shows.) -/
theorem C2_amended (c : SyncOrchestrator) (now : Int) (item : SyncItem)
    (hskip : SyncOrchestrator.delta_skip c item = false)
    (hrv : item.remote_value.isSome = true)
    (hrt : item.remote_modified_at = some item.local_modified_at)
    (hcs : item.local_checksum = compute_checksum item.remote_value) :
    (SyncOrchestrator.sync_item c now item).2 =
      { item_id := item.item_id, key := item.key, status := SyncStatus.SYNCED,
        conflict_resolved_value := some item.local_value, synced_at := now } ∧
    (SyncOrchestrator.sync_item c now item).1.manual_conflicts =
      c.manual_conflicts := by
  obtain ⟨rv, hrv2⟩ := Option.isSome_iff_exists.mp hrv
  unfold SyncOrchestrator.sync_item
  rw [hskip]
  simp only [Bool.false_eq_true, if_false, hrv2, hrt]
  unfold SyncOrchestrator.handle_conflict
  rw [if_pos ⟨hrt, hcs⟩]
  exact ⟨rfl, rfl⟩

/-- Item used by the C2 amended witness: MANUAL policy, identical content,
identical timestamps. -/
def c2w_item : SyncItem :=
  mkSyncItem "w2" "k" 5 SyncPriority.NORMAL (some 5) 3 (some 3)
    ConflictResolution.MANUAL

/-- Orchestrator holding only `c2w_item`. -/
def c2w_orch : SyncOrchestrator := { queue := [c2w_item] }

/-- Witness for C2 amended at a concrete MANUAL-policy item. -/
theorem C2_amended_witness :
    (SyncOrchestrator.sync_item c2w_orch 3 c2w_item).2 =
      { item_id := "w2", key := "k", status := SyncStatus.SYNCED,
        conflict_resolved_value := some 5, synced_at := 3 } ∧
    (SyncOrchestrator.sync_item c2w_orch 3 c2w_item).1.manual_conflicts =
      c2w_orch.manual_conflicts :=
  C2_amended c2w_orch 3 c2w_item (by decide) (by decide) (by decide) (by decide)

/-- C3: once a fingerprint is recorded as last-synced for a key, any
subsequently processed pending item with that key and the same local
fingerprint is marked SKIPPED, no conflict logic runs (the manual-conflict
list is untouched) and the last-synced fingerprint table is unchanged. -/
theorem C3_delta_skip (c : SyncOrchestrator) (now : Int) (item : SyncItem)
    (hrec : assocGet c.checksums item.key = some item.local_checksum) :
    (SyncOrchestrator.sync_item c now item).2.status = SyncStatus.SKIPPED ∧
    (SyncOrchestrator.sync_item c now item).1.checksums = c.checksums ∧
    (SyncOrchestrator.sync_item c now item).1.manual_conflicts =
      c.manual_conflicts := by
  have hskip : SyncOrchestrator.delta_skip c item = true := by
    unfold SyncOrchestrator.delta_skip
    rw [hrec]
    simp [SyncItem.has_changed]
  unfold SyncOrchestrator.sync_item
  rw [hskip]
  exact ⟨rfl, rfl, rfl⟩

/-- First item synced for key "K" in the C3 scenario. -/
def c3_item1 : SyncItem :=
  mkSyncItem "a1" "K" 5 SyncPriority.NORMAL none 0 none
    ConflictResolution.LAST_WRITE_WINS

/-- Second item with the same key and the same value, enqueued after the
first one was synced. -/
def c3_item2 : SyncItem :=
  mkSyncItem "a2" "K" 5 SyncPriority.NORMAL none 10 none
    ConflictResolution.LAST_WRITE_WINS

/-- Orchestrator state after enqueuing and syncing the first item and then
enqueuing the second. -/
def c3_state : SyncOrchestrator :=
  SyncOrchestrator.enqueue
    ((SyncOrchestrator.enqueue {} c3_item1).sync_all 0).1 c3_item2

/-- Witness for C3: the delta-sync idempotence scenario — the second sync of
the same key and value yields SKIPPED and changes neither the fingerprint
table nor the manual-conflict list. -/
theorem C3_delta_skip_witness :
    (SyncOrchestrator.sync_item c3_state 1 c3_item2).2.status =
      SyncStatus.SKIPPED ∧
    (SyncOrchestrator.sync_item c3_state 1 c3_item2).1.checksums =
      c3_state.checksums ∧
    (SyncOrchestrator.sync_item c3_state 1 c3_item2).1.manual_conflicts =
      c3_state.manual_conflicts :=
  C3_delta_skip c3_state 1 c3_item2 (by decide)

/-- C4: a genuine conflict resolved automatically — under LAST_WRITE_WINS
the strictly later timestamp wins with ties favouring the local value; under
LOCAL_WINS the local value always wins and under REMOTE_WINS the remote
value always wins, independent of timestamps; in all three cases the item is
marked SYNCED, the winning value's fingerprint is recorded as the new
last-synced fingerprint for the key, and the result carries the winner. -/
theorem C4_conflict_resolution (c : SyncOrchestrator) (now : Int)
    (item : SyncItem) (rv : Value) (rts : Int)
    (hrv : item.remote_value = some rv)
    (hrt : item.remote_modified_at = some rts)
    (hgen : ¬(rts = item.local_modified_at ∧
              item.local_checksum = compute_checksum item.remote_value))
    (hck : item.local_checksum = compute_checksum (some item.local_value)) :
    (item.conflict_resolution = ConflictResolution.LAST_WRITE_WINS →
      ∃ c' r, SyncOrchestrator.handle_conflict c now item = some (c', r) ∧
        r.status = SyncStatus.SYNCED ∧
        r.conflict_resolved_value =
          (if item.local_modified_at < rts then some rv
           else some item.local_value) ∧
        assocGet c'.checksums item.key =
          some (compute_checksum r.conflict_resolved_value) ∧
        c'.queue = SyncOrchestrator.update_item c.queue
          { item with status := SyncStatus.SYNCED, synced_at := some now }) ∧
    (item.conflict_resolution = ConflictResolution.LOCAL_WINS →
      ∃ c' r, SyncOrchestrator.handle_conflict c now item = some (c', r) ∧
        r.status = SyncStatus.SYNCED ∧
        r.conflict_resolved_value = some item.local_value ∧
        assocGet c'.checksums item.key =
          some (compute_checksum (some item.local_value)) ∧
        c'.queue = SyncOrchestrator.update_item c.queue
          { item with status := SyncStatus.SYNCED, synced_at := some now }) ∧
    (item.conflict_resolution = ConflictResolution.REMOTE_WINS →
      ∃ c' r, SyncOrchestrator.handle_conflict c now item = some (c', r) ∧
        r.status = SyncStatus.SYNCED ∧
        r.conflict_resolved_value = some rv ∧
        assocGet c'.checksums item.key =
          some (compute_checksum (some rv)) ∧
        c'.queue = SyncOrchestrator.update_item c.queue
          { item with status := SyncStatus.SYNCED, synced_at := some now }) := by
  have hcond : ¬(item.remote_modified_at = some item.local_modified_at ∧
      item.local_checksum = compute_checksum item.remote_value) := by
    rw [hrt]
    rintro ⟨h1, h2⟩
    exact hgen ⟨Option.some_injective _ h1, h2⟩
  refine ⟨?_, ?_, ?_⟩ <;> intro hstrat <;>
    unfold SyncOrchestrator.handle_conflict <;>
    rw [if_neg hcond, hstrat] <;>
    unfold SyncOrchestrator.record_synced
  · refine ⟨_, _, rfl, rfl, ?_, ?_, ?_⟩
    · rw [hrt, hrv]
    · rw [hrt]
      exact assocGet_assocSet_self _ _ _
    · rw [hstrat]
  · refine ⟨_, _, rfl, rfl, rfl, ?_, ?_⟩
    · rw [hck]
      exact assocGet_assocSet_self _ _ _
    · rw [hstrat]
  · refine ⟨_, _, rfl, rfl, ?_, ?_, ?_⟩
    · rw [hrv]
    · rw [hrv]
      exact assocGet_assocSet_self _ _ _
    · rw [hstrat]

/-- Conflicted LAST_WRITE_WINS item with a strictly newer remote timestamp. -/
def c4_item : SyncItem :=
  mkSyncItem "b1" "kk" 5 SyncPriority.NORMAL (some 9) 0 (some 10)
    ConflictResolution.LAST_WRITE_WINS

/-- Orchestrator holding only `c4_item`. -/
def c4_orch : SyncOrchestrator := { queue := [c4_item] }

/-- Witness for C4 at a concrete LAST_WRITE_WINS conflict (remote newer, so
the remote value wins and its fingerprint is recorded). -/
theorem C4_conflict_resolution_witness :
    (SyncOrchestrator.handle_conflict c4_orch 20 c4_item).map
        (fun p => p.2.status) = some SyncStatus.SYNCED ∧
    (SyncOrchestrator.handle_conflict c4_orch 20 c4_item).map
        (fun p => p.2.conflict_resolved_value) = some (some 9) ∧
    (SyncOrchestrator.handle_conflict c4_orch 20 c4_item).map
        (fun p => assocGet p.1.checksums c4_item.key) =
      some (some (compute_checksum (some 9))) := by
  obtain ⟨c', r, heq, hst, hval, hcs, -⟩ :=
    (C4_conflict_resolution c4_orch 20 c4_item 9 10 rfl rfl (by decide) rfl).1 rfl
  rw [if_pos (by decide)] at hval
  rw [heq]
  exact ⟨by rw [Option.map_some']; rw [hst],
         by rw [Option.map_some']; rw [hval],
         by rw [Option.map_some']; rw [hcs, hval]⟩

/-- C6: the instant a MANUAL-policy item is flagged as a genuine conflict,
the emitted result is CONFLICT with no winning value, the item (marked
CONFLICT) is appended to the manual-conflict side list, and no item carrying
its id remains in the pending view of the queue. -/
theorem C6_manual_flag (c : SyncOrchestrator) (now : Int) (item : SyncItem)
    (rv : Value) (rts : Int)
    (hskip : SyncOrchestrator.delta_skip c item = false)
    (hrv : item.remote_value = some rv)
    (hrt : item.remote_modified_at = some rts)
    (hgen : ¬(rts = item.local_modified_at ∧
              item.local_checksum = compute_checksum item.remote_value))
    (hman : item.conflict_resolution = ConflictResolution.MANUAL) :
    (SyncOrchestrator.sync_item c now item).2.status = SyncStatus.CONFLICT ∧
    (SyncOrchestrator.sync_item c now item).2.conflict_resolved_value = none ∧
    SyncOrchestrator.get_manual_conflicts
        (SyncOrchestrator.sync_item c now item).1 =
      c.manual_conflicts ++ [{ item with status := SyncStatus.CONFLICT }] ∧
    (∀ j ∈ SyncOrchestrator.get_pending (SyncOrchestrator.sync_item c now item).1,
      j.item_id ≠ item.item_id) := by
  have hcond : ¬(item.remote_modified_at = some item.local_modified_at ∧
      item.local_checksum = compute_checksum item.remote_value) := by
    rw [hrt]
    rintro ⟨h1, h2⟩
    exact hgen ⟨Option.some_injective _ h1, h2⟩
  have hstep : SyncOrchestrator.sync_item c now item =
      ({ c with
          queue := SyncOrchestrator.update_item c.queue
            { item with status := SyncStatus.CONFLICT },
          manual_conflicts :=
            c.manual_conflicts ++ [{ item with status := SyncStatus.CONFLICT }] },
        { item_id := item.item_id, key := item.key,
          status := SyncStatus.CONFLICT, synced_at := now }) := by
    unfold SyncOrchestrator.sync_item
    rw [hskip]
    simp only [Bool.false_eq_true, if_false, hrv, hrt]
    unfold SyncOrchestrator.handle_conflict
    rw [if_neg hcond, hman]
    simp only [hrv, hrt]
  rw [hstep]
  refine ⟨rfl, rfl, rfl, ?_⟩
  intro j hj hid
  have hj2 : j ∈ (SyncOrchestrator.update_item c.queue
      { item with status := SyncStatus.CONFLICT }).filter
      (fun i => i.status = SyncStatus.PENDING) :=
    ((List.perm_insertionSort SyncOrchestrator.priLe _).mem_iff).mp hj
  rw [List.mem_filter] at hj2
  obtain ⟨hjq, hjp⟩ := hj2
  rw [SyncOrchestrator.update_item, List.mem_map] at hjq
  obtain ⟨x, _, hx⟩ := hjq
  by_cases hxi : x.item_id = item.item_id
  · rw [if_pos hxi] at hx
    rw [← hx] at hjp
    simp at hjp
  · rw [if_neg hxi] at hx
    rw [← hx] at hid
    exact hxi hid

/-- MANUAL-policy item with genuinely diverging content in the C6 scenario. -/
def c6_item : SyncItem :=
  mkSyncItem "m1" "mk" 5 SyncPriority.NORMAL (some 9) 0 (some 1)
    ConflictResolution.MANUAL

/-- Orchestrator holding only `c6_item` (pending). -/
def c6_orch : SyncOrchestrator := { queue := [c6_item] }

/-- Witness for C6 at the concrete MANUAL conflict. -/
theorem C6_manual_flag_witness :
    (SyncOrchestrator.sync_item c6_orch 2 c6_item).2.status =
      SyncStatus.CONFLICT ∧
    (SyncOrchestrator.sync_item c6_orch 2 c6_item).2.conflict_resolved_value =
      none ∧
    SyncOrchestrator.get_manual_conflicts
        (SyncOrchestrator.sync_item c6_orch 2 c6_item).1 =
      c6_orch.manual_conflicts ++ [{ c6_item with status := SyncStatus.CONFLICT }] := by
  obtain ⟨h1, h2, h3, -⟩ :=
    C6_manual_flag c6_orch 2 c6_item 9 1 (by decide) rfl rfl (by decide) rfl
  exact ⟨h1, h2, h3⟩

/-- Length bookkeeping of the removal performed by `resolve_manual_conflict`:
when an item with the id is present, exactly one element is removed. -/
theorem remove_first_by_id_length (l : List SyncItem) (iid : String)
    (h : (l.find? (fun j => j.item_id = iid)).isSome = true) :
    (SyncOrchestrator.remove_first_by_id l iid).length + 1 = l.length := by
  induction l with
  | nil => simp [List.find?] at h
  | cons i rest ih =>
    unfold SyncOrchestrator.remove_first_by_id
    by_cases hi : i.item_id = iid
    · rw [if_pos hi]
      rfl
    · rw [if_neg hi]
      have h' : (rest.find? (fun j => j.item_id = iid)).isSome = true := by
        rw [List.find?, decide_eq_false hi] at h
        exact h
      have := ih h'
      simp only [List.length_cons]
      omega

/-- C7: `resolve_manual_conflict` succeeds exactly when an item with the id
is in the manual-conflict list.  On success the item is removed from that
list (the list shrinks by one), the chosen value's fingerprint is recorded
as last-synced for the item's key, every queue entry carrying the id is
marked SYNCED, and a SYNCED result carrying the chosen value is appended to
the history and returned.  With no such item it raises `KeyError` (modelled
as `none`, leaving the state unchanged). -/
theorem C7_resolve_manual (c : SyncOrchestrator) (now : Int) (iid : String)
    (chosen : Option Value) :
    ((∀ j ∈ c.manual_conflicts, j.item_id ≠ iid) →
      SyncOrchestrator.resolve_manual_conflict c now iid chosen = none) ∧
    (∀ it, c.manual_conflicts.find? (fun j => j.item_id = iid) = some it →
      ∃ c' r, SyncOrchestrator.resolve_manual_conflict c now iid chosen =
          some (c', r) ∧
        r = { item_id := iid, key := it.key, status := SyncStatus.SYNCED,
              conflict_resolved_value := chosen, synced_at := now } ∧
        assocGet c'.checksums it.key = some (compute_checksum chosen) ∧
        c'.manual_conflicts =
          SyncOrchestrator.remove_first_by_id c.manual_conflicts iid ∧
        c'.manual_conflicts.length + 1 = c.manual_conflicts.length ∧
        c'.history = c.history ++ [r] ∧
        (∀ j ∈ c'.queue, j.item_id = iid → j.status = SyncStatus.SYNCED)) := by
  constructor
  · intro hno
    unfold SyncOrchestrator.resolve_manual_conflict
    rw [List.find?_eq_none.mpr (fun x hx => by simpa using hno x hx)]
  · intro it hfind
    have hit : it.item_id = iid := by simpa using List.find?_some hfind
    unfold SyncOrchestrator.resolve_manual_conflict
    rw [hfind]
    refine ⟨_, _, rfl, rfl, ?_, rfl, ?_, rfl, ?_⟩
    · exact assocGet_assocSet_self _ _ _
    · exact remove_first_by_id_length _ _ (by rw [hfind]; rfl)
    · intro j hj hid
      rw [SyncOrchestrator.update_item, List.mem_map] at hj
      obtain ⟨x, _, hx⟩ := hj
      by_cases hxi : x.item_id = it.item_id
      · rw [if_pos hxi] at hx
        rw [← hx]
      · rw [if_neg hxi] at hx
        rw [← hx] at hid
        exact absurd (hid.trans hit.symm) hxi

/-- Manually conflicted item used by the C7 witness. -/
def c7_item : SyncItem :=
  { mkSyncItem "r1" "rk" 5 SyncPriority.NORMAL (some 9) 0 (some 1)
      ConflictResolution.MANUAL with
    status := SyncStatus.CONFLICT }

/-- Orchestrator whose manual-conflict list holds exactly `c7_item`. -/
def c7_orch : SyncOrchestrator :=
  { queue := [c7_item], manual_conflicts := [c7_item] }

/-- Witness for C7: resolving an unknown id raises, resolving the present id
returns the SYNCED result carrying the chosen value. -/
theorem C7_resolve_manual_witness :
    SyncOrchestrator.resolve_manual_conflict c7_orch 5 "ghost" (some 3) =
      none ∧
    (SyncOrchestrator.resolve_manual_conflict c7_orch 5 "r1" (some 3)).map
        (fun p => p.2) =
      some { item_id := "r1", key := "rk", status := SyncStatus.SYNCED,
             conflict_resolved_value := some 3, synced_at := 5 } := by
  refine ⟨(C7_resolve_manual c7_orch 5 "ghost" (some 3)).1 (by decide), ?_⟩
  obtain ⟨c', r, heq, hr, -, -, -, -, -⟩ :=
    (C7_resolve_manual c7_orch 5 "r1" (some 3)).2 c7_item (by decide)
  rw [heq, Option.map_some', hr]
  rfl

/-- C8: the cache key is a deterministic function of the call's arguments —
two calls agree on the cache key exactly when they have the same positional
arguments and the same multiset of keyword bindings (keyword order is
irrelevant because the key sorts them; different arguments always produce
different keys). -/
theorem C8_cache_key_deterministic (a1 a2 : List Value)
    (k1 k2 : List (String × Value)) :
    make_cache_key a1 k1 = make_cache_key a2 k2 ↔ (a1 = a2 ∧ k1.Perm k2) := by
  unfold make_cache_key
  rw [Prod.mk.injEq]
  constructor
  · rintro ⟨ha, hs⟩
    refine ⟨ha, ?_⟩
    have h1 := (List.perm_insertionSort kwLe k1).symm
    rw [hs] at h1
    exact h1.trans (List.perm_insertionSort kwLe k2)
  · rintro ⟨ha, hp⟩
    refine ⟨ha, ?_⟩
    exact List.eq_of_perm_of_sorted
      ((List.perm_insertionSort kwLe k1).trans
        (hp.trans (List.perm_insertionSort kwLe k2).symm))
      (List.sorted_insertionSort kwLe k1)
      (List.sorted_insertionSort kwLe k2)

/-- Witness-style instance of C8: keyword order does not change the key. -/
theorem C8_cache_key_deterministic_witness :
    make_cache_key [1] [("b", 2), ("a", 3)] =
      make_cache_key [1] [("a", 3), ("b", 2)] :=
  (C8_cache_key_deterministic [1] [1] [("b", 2), ("a", 3)]
    [("a", 3), ("b", 2)]).mpr ⟨rfl, List.Perm.swap ("a", 3) ("b", 2) []⟩

/-- Condition under which the cache tier serves a call: tier enabled and an
unexpired entry is stored under the key. -/
def cache_serves (c : OfflineFallbackChain) (now : Int) (tool : String)
    (strategy : FallbackStrategy) (key : CacheKey) : Bool :=
  strategy.enable_cache &&
    (match assocGet ((assocGet c.caches tool).getD []) key with
     | some e => !(e.is_expired now)
     | none => false)

/-- Condition under which the local tier serves a call: tier enabled, a
local alternative is registered, and it does not raise on these arguments. -/
def local_serves (c : OfflineFallbackChain) (tool : String)
    (strategy : FallbackStrategy) (args : List Value)
    (kwargs : List (String × Value)) : Bool :=
  strategy.enable_local &&
    (match assocGet c.locals tool with
     | some f => exceptOk (f args kwargs)
     | none => false)

/-- Condition under which the primary tier does not serve: the primary
callable raises on these arguments (or is absent). -/
def primary_fails (c : OfflineFallbackChain) (tool : String)
    (args : List Value) (kwargs : List (String × Value)) : Bool :=
  match assocGet c.primaries tool with
  | some f => !(exceptOk (f args kwargs))
  | none => true

/-- Registration view used by the cascade and flush theorems: the four
per-tool tables that `register_tool` initialises are present. -/
def Registered (c : OfflineFallbackChain) (tool : String) : Prop :=
  (assocGet c.strategies tool).isSome = true ∧
  (assocGet c.primaries tool).isSome = true ∧
  (assocGet c.caches tool).isSome = true ∧
  (assocGet c.queues tool).isSome = true

/-- Presence of a key survives any dictionary update. -/
theorem assocGet_assocSet_isSome {κ α : Type} [DecidableEq κ]
    (d : List (κ × α)) (k k' : κ) (v : α)
    (h : (assocGet d k').isSome = true) :
    (assocGet (assocSet d k v) k').isSome = true := by
  by_cases hk : k' = k
  · subst hk
    rw [assocGet_assocSet_self]
    rfl
  · rw [assocGet_assocSet_ne d k k' v hk]
    exact h

/-- Counter increments do not remove any registered table. -/
theorem increment_preserves (c : OfflineFallbackChain) (tool : String)
    (outcome : FallbackOutcome) (t : String) (h : Registered c t) :
    Registered (OfflineFallbackChain.increment c tool outcome) t := by
  unfold OfflineFallbackChain.increment
  cases hm : assocGet c.call_counts tool
  · exact h
  · exact h

/-- Rewriting one tool's cache table keeps every registered tool present. -/
theorem registered_set_caches (c : OfflineFallbackChain) (t k : String)
    (v : List (CacheKey × CacheEntry)) (h : Registered c t) :
    Registered { c with caches := assocSet c.caches k v } t :=
  ⟨h.1, h.2.1, assocGet_assocSet_isSome _ _ _ _ h.2.2.1, h.2.2.2⟩

/-- Rewriting one tool's queue keeps every registered tool present. -/
theorem registered_set_queues (c : OfflineFallbackChain) (t k : String)
    (v : List QueuedCall) (h : Registered c t) :
    Registered { c with queues := assocSet c.queues k v } t :=
  ⟨h.1, h.2.1, h.2.2.1, assocGet_assocSet_isSome _ _ _ _ h.2.2.2⟩

/-- Tail of the cascade (local tier and below): the outcome is LOCAL exactly
when the local tier serves, otherwise QUEUED when queuing is enabled,
otherwise FAILED; the produced chain keeps every registered tool present. -/
theorem cascade_tail_spec (c : OfflineFallbackChain) (now : Int)
    (tool : String) (strategy : FallbackStrategy) (args : List Value)
    (kwargs : List (String × Value)) (q : List QueuedCall)
    (hqueue : assocGet c.queues tool = some q) :
    ∃ c' r,
      (match (if strategy.enable_local ∧ (assocGet c.locals tool).isSome
              then OfflineFallbackChain.try_local c now tool args kwargs
              else (c, none)) with
       | (c3, some res) => some (c3, res)
       | (c3, none) =>
         if strategy.enable_queue then
           OfflineFallbackChain.queue_call c3 now tool strategy args kwargs
         else
           some (OfflineFallbackChain.failed_result c3 now tool
             "All fallback tiers exhausted")) = some (c', r) ∧
      r.outcome =
        (if local_serves c tool strategy args kwargs then FallbackOutcome.LOCAL
         else if strategy.enable_queue then FallbackOutcome.QUEUED
         else FallbackOutcome.FAILED) ∧
      (∀ t, Registered c t → Registered c' t) := by
  by_cases hloc : strategy.enable_local = true ∧ (assocGet c.locals tool).isSome = true
  · obtain ⟨f, hf⟩ := Option.isSome_iff_exists.mp hloc.2
    rw [if_pos hloc]
    unfold OfflineFallbackChain.try_local local_serves
    simp only [hf, hloc.1, Bool.true_and]
    cases hres : f args kwargs with
    | ok v =>
        simp only [hres, exceptOk]
        exact ⟨_, _, rfl, rfl, fun t h => increment_preserves c tool _ t h⟩
    | error e =>
        simp only [hres, exceptOk]
        cases heq : strategy.enable_queue
        · exact ⟨_, _, rfl, rfl, fun t h => increment_preserves c tool _ t h⟩
        · unfold OfflineFallbackChain.queue_call
          simp only [hqueue]
          exact ⟨_, _, rfl, rfl, fun t h =>
            increment_preserves _ tool _ t (registered_set_queues c t tool _ h)⟩
  · rw [if_neg hloc]
    have hserv : local_serves c tool strategy args kwargs = false := by
      unfold local_serves
      cases hel : strategy.enable_local
      · rfl
      · cases hlook : assocGet c.locals tool with
        | none => simp [hlook]
        | some g => exact absurd ⟨hel, by rw [hlook]; rfl⟩ hloc
    rw [hserv]
    cases heq : strategy.enable_queue
    · exact ⟨_, _, rfl, rfl, fun t h => increment_preserves c tool _ t h⟩
    · unfold OfflineFallbackChain.queue_call
      simp only [hqueue]
      exact ⟨_, _, rfl, rfl, fun t h =>
        increment_preserves _ tool _ t (registered_set_queues c t tool _ h)⟩

/-- Full cascade characterisation: with the tool's queue table present the
cascade always produces a result, its outcome is the first serving tier in
the fixed order cache → local → queue with FAILED exactly when every
enabled tier has been exhausted, and the produced chain keeps every
registered tool present. -/
theorem cascade_spec (c : OfflineFallbackChain) (now : Int) (tool : String)
    (strategy : FallbackStrategy) (key : CacheKey) (args : List Value)
    (kwargs : List (String × Value)) (q : List QueuedCall)
    (hqueue : assocGet c.queues tool = some q) :
    ∃ c' r, OfflineFallbackChain.cascade c now tool strategy key args kwargs =
        some (c', r) ∧
      r.outcome =
        (if cache_serves c now tool strategy key then FallbackOutcome.CACHED
         else if local_serves c tool strategy args kwargs then
           FallbackOutcome.LOCAL
         else if strategy.enable_queue then FallbackOutcome.QUEUED
         else FallbackOutcome.FAILED) ∧
      (∀ t, Registered c t → Registered c' t) := by
  unfold OfflineFallbackChain.cascade
  cases hec : strategy.enable_cache
  · have hcs : cache_serves c now tool strategy key = false := by
      unfold cache_serves
      rw [hec]
      rfl
    rw [hcs]
    exact cascade_tail_spec c now tool strategy args kwargs q hqueue
  · unfold OfflineFallbackChain.try_cache
    cases hget : assocGet ((assocGet c.caches tool).getD []) key with
    | none =>
        have hcs : cache_serves c now tool strategy key = false := by
          unfold cache_serves
          rw [hec, hget]
          rfl
        rw [hcs]
        simp only [hget]
        exact cascade_tail_spec c now tool strategy args kwargs q hqueue
    | some entry =>
        cases hexp : entry.is_expired now
        · have hcs : cache_serves c now tool strategy key = true := by
            unfold cache_serves
            simp [hec, hget, hexp]
          rw [hcs]
          simp only [hget, hexp]
          exact ⟨_, _, rfl, rfl, fun t h => increment_preserves c tool _ t h⟩
        · have hcs : cache_serves c now tool strategy key = false := by
            unfold cache_serves
            simp [hec, hget, hexp]
          rw [hcs]
          simp only [hget, hexp, eq_self_iff_true, if_true]
          obtain ⟨c', r, he, ho, hp⟩ :=
            cascade_tail_spec { c with caches := assocSet c.caches tool (((assocGet c.caches tool).getD []).filter (fun p => ¬(p.1 = key))) } now tool strategy args kwargs q hqueue
          exact ⟨c', r, he, ho, fun t h => hp t (registered_set_caches c t tool _ h)⟩

/-- C1: for a registered tool, `call` never raises (exceptions of the
primary or local callables are caught internally, so the result is always
`some`); when the primary tier does not serve the call — state OFFLINE, or
the primary raises — the remaining enabled tiers are attempted in the fixed
order cache, then local, then queue, never skipping an enabled tier, and
FAILED is returned only when every enabled tier has been exhausted. -/
theorem C1_call_cascade (c : OfflineFallbackChain) (now : Int) (tool : String)
    (args : List Value) (kwargs : List (String × Value))
    (strategy : FallbackStrategy)
    (hs : assocGet c.strategies tool = some strategy)
    (hp : (assocGet c.primaries tool).isSome = true)
    (hc : (assocGet c.caches tool).isSome = true)
    (hq : (assocGet c.queues tool).isSome = true) :
    (c.call now tool args kwargs).isSome = true ∧
    ((c.state = OnlineState.OFFLINE ∨
        primary_fails c tool args kwargs = true) →
      (c.call now tool args kwargs).map (fun p => p.2.outcome) =
        some (if cache_serves c now tool strategy (make_cache_key args kwargs)
              then FallbackOutcome.CACHED
              else if local_serves c tool strategy args kwargs
              then FallbackOutcome.LOCAL
              else if strategy.enable_queue then FallbackOutcome.QUEUED
              else FallbackOutcome.FAILED)) := by
  obtain ⟨f, hf⟩ := Option.isSome_iff_exists.mp hp
  obtain ⟨cache, hcache⟩ := Option.isSome_iff_exists.mp hc
  obtain ⟨q, hqueue⟩ := Option.isSome_iff_exists.mp hq
  obtain ⟨c', r, hcas, hout, -⟩ :=
    cascade_spec c now tool strategy (make_cache_key args kwargs) args kwargs
      q hqueue
  unfold OfflineFallbackChain.call
  simp only [hs]
  cases hstate : c.state with
  | ONLINE =>
    cases hres : f args kwargs with
    | ok v =>
      obtain ⟨c1, res, htp⟩ : ∃ c1 res,
          OfflineFallbackChain.try_primary c now tool strategy
            (make_cache_key args kwargs) args kwargs = (c1, some res) := by
        unfold OfflineFallbackChain.try_primary
        simp only [hf, hres]
        cases hec : strategy.enable_cache
        · simp only [Bool.false_eq_true, if_false]
          exact ⟨_, _, rfl⟩
        · simp only [eq_self_iff_true, if_true, hcache]
          exact ⟨_, _, rfl⟩
      refine ⟨?_, ?_⟩
      · simp only [htp, eq_self_iff_true, if_true]
        rfl
      · intro hdisj
        exfalso
        cases hdisj with
        | inl hoff => exact OnlineState.noConfusion hoff
        | inr hfail =>
            unfold primary_fails at hfail
            simp only [hf, hres, exceptOk, Bool.not_true] at hfail
            exact Bool.false_ne_true hfail
    | error e =>
      have htp : OfflineFallbackChain.try_primary c now tool strategy
          (make_cache_key args kwargs) args kwargs = (c, none) := by
        unfold OfflineFallbackChain.try_primary
        simp only [hf, hres]
      refine ⟨?_, fun _ => ?_⟩
      · simp only [htp, eq_self_iff_true, if_true, hcas]
        rfl
      · simp only [htp, eq_self_iff_true, if_true, hcas, Option.map_some']
        rw [hout]
  | OFFLINE =>
    have hne : (OnlineState.OFFLINE = OnlineState.ONLINE) = False :=
      eq_false (by decide)
    refine ⟨?_, fun _ => ?_⟩
    · simp only [hne, if_false, hcas]
      rfl
    · simp only [hne, if_false, hcas, Option.map_some']
      rw [hout]

/-- Primary callable that always raises, used by the C1 witness chain. -/
def c1_primary : ToolFn := fun _ _ => Except.error "offline"

/-- Offline chain with one registered tool, used by the C1 witness. -/
def c1_chain : OfflineFallbackChain :=
  (OfflineFallbackChain.init OnlineState.OFFLINE).register_tool
    { tool_name := "w" } c1_primary none

/-- Witness for C1: an offline call on the registered tool succeeds and its
outcome follows the cascade characterisation. -/
theorem C1_call_cascade_witness :
    (c1_chain.call 0 "w" [4] []).isSome = true ∧
    (c1_chain.call 0 "w" [4] []).map (fun p => p.2.outcome) =
      some (if cache_serves c1_chain 0 "w" { tool_name := "w" }
                (make_cache_key [4] [])
            then FallbackOutcome.CACHED
            else if local_serves c1_chain "w" { tool_name := "w" } [4] []
            then FallbackOutcome.LOCAL
            else if ({ tool_name := "w" } : FallbackStrategy).enable_queue
            then FallbackOutcome.QUEUED
            else FallbackOutcome.FAILED) := by
  have h := C1_call_cascade c1_chain 0 "w" [4] [] { tool_name := "w" }
    rfl rfl rfl rfl
  exact ⟨h.1, h.2 (Or.inl rfl)⟩

/-- Totality and registration preservation of `call` on a registered tool:
the call always returns a result, and the produced chain keeps every
registered tool's tables present. -/
theorem call_total_registered (c : OfflineFallbackChain) (now : Int)
    (tool : String) (args : List Value) (kwargs : List (String × Value))
    (hreg : Registered c tool) :
    ∃ c2 r, OfflineFallbackChain.call c now tool args kwargs = some (c2, r) ∧
      (∀ t, Registered c t → Registered c2 t) := by
  obtain ⟨hs', hp', hc', hq'⟩ := hreg
  obtain ⟨strategy, hs⟩ := Option.isSome_iff_exists.mp hs'
  obtain ⟨f, hf⟩ := Option.isSome_iff_exists.mp hp'
  obtain ⟨cache, hcache⟩ := Option.isSome_iff_exists.mp hc'
  obtain ⟨q, hqueue⟩ := Option.isSome_iff_exists.mp hq'
  obtain ⟨c', r, hcas, -, hpres⟩ :=
    cascade_spec c now tool strategy (make_cache_key args kwargs) args kwargs
      q hqueue
  unfold OfflineFallbackChain.call
  simp only [hs]
  cases hstate : c.state with
  | ONLINE =>
    cases hres : f args kwargs with
    | ok v =>
      obtain ⟨c1, res, htp, hp1⟩ : ∃ c1 res,
          OfflineFallbackChain.try_primary c now tool strategy
            (make_cache_key args kwargs) args kwargs = (c1, some res) ∧
          (∀ t, Registered c t → Registered c1 t) := by
        unfold OfflineFallbackChain.try_primary
        simp only [hf, hres]
        cases hec : strategy.enable_cache
        · simp only [Bool.false_eq_true, if_false]
          exact ⟨_, _, rfl, fun t h => increment_preserves c tool _ t h⟩
        · simp only [eq_self_iff_true, if_true, hcache]
          exact ⟨_, _, rfl, fun t h =>
            increment_preserves _ tool _ t (registered_set_caches c t tool _ h)⟩
      refine ⟨c1, res, ?_, hp1⟩
      simp only [htp, eq_self_iff_true, if_true]
    | error e =>
      have htp : OfflineFallbackChain.try_primary c now tool strategy
          (make_cache_key args kwargs) args kwargs = (c, none) := by
        unfold OfflineFallbackChain.try_primary
        simp only [hf, hres]
      refine ⟨c', r, ?_, hpres⟩
      simp only [htp, eq_self_iff_true, if_true, hcas]
  | OFFLINE =>
    have hne : (OnlineState.OFFLINE = OnlineState.ONLINE) = False :=
      eq_false (by decide)
    refine ⟨c', r, ?_, hpres⟩
    simp only [hne, if_false, hcas]

/-- Replay of a drained snapshot on a registered tool: it always succeeds,
produces exactly one result per drained call, and keeps registration. -/
theorem replay_spec (now : Int) (tool : String) (l : List QueuedCall) :
    ∀ c, Registered c tool →
      ∃ c' rs, OfflineFallbackChain.replay c now tool l = some (c', rs) ∧
        rs.length = l.length ∧ Registered c' tool := by
  induction l with
  | nil => exact fun c hreg => ⟨c, [], rfl, rfl, hreg⟩
  | cons qc rest ih =>
    intro c hreg
    obtain ⟨c2, r, hcall, hpres⟩ :=
      call_total_registered c now tool qc.args qc.kwargs hreg
    obtain ⟨c3, rs, hrep, hlen, hreg3⟩ := ih c2 (hpres tool hreg)
    refine ⟨c3, r :: rs, ?_, ?_, hreg3⟩
    · unfold OfflineFallbackChain.replay
      simp only [hcall, hrep]
    · simp [hlen]

/-- Replay splits over list append: the second segment is replayed in the
state the first segment produced, and the result lists concatenate. -/
theorem replay_append (now : Int) (tool : String) (l1 l2 : List QueuedCall) :
    ∀ c, OfflineFallbackChain.replay c now tool (l1 ++ l2) =
      (match OfflineFallbackChain.replay c now tool l1 with
       | none => none
       | some (c1, rs1) =>
         match OfflineFallbackChain.replay c1 now tool l2 with
         | none => none
         | some (c2, rs2) => some (c2, rs1 ++ rs2)) := by
  induction l1 with
  | nil =>
    intro c
    rw [List.nil_append]
    have h0 : OfflineFallbackChain.replay c now tool [] = some (c, []) := rfl
    rw [h0]
    dsimp only
    cases h2 : OfflineFallbackChain.replay c now tool l2 with
    | none => rfl
    | some p =>
      obtain ⟨c2, rs2⟩ := p
      simp
  | cons qc rest ih =>
    intro c
    rw [List.cons_append]
    have e1 : OfflineFallbackChain.replay c now tool (qc :: (rest ++ l2)) =
        (match OfflineFallbackChain.call c now tool qc.args qc.kwargs with
         | none => none
         | some (c', r) =>
           match OfflineFallbackChain.replay c' now tool (rest ++ l2) with
           | none => none
           | some (c'', rs) => some (c'', r :: rs)) := rfl
    have e2 : OfflineFallbackChain.replay c now tool (qc :: rest) =
        (match OfflineFallbackChain.call c now tool qc.args qc.kwargs with
         | none => none
         | some (c', r) =>
           match OfflineFallbackChain.replay c' now tool rest with
           | none => none
           | some (c'', rs) => some (c'', r :: rs)) := rfl
    rw [e1, e2]
    cases hcall : OfflineFallbackChain.call c now tool qc.args qc.kwargs with
    | none => rfl
    | some p =>
      obtain ⟨c1, r⟩ := p
      dsimp only
      rw [ih c1]
      cases h1 : OfflineFallbackChain.replay c1 now tool rest with
      | none => rfl
      | some p1 =>
        obtain ⟨cm, rs1⟩ := p1
        dsimp only
        cases h2 : OfflineFallbackChain.replay cm now tool l2 with
        | none => rfl
        | some p2 =>
          obtain ⟨c2, rs2⟩ := p2
          simp

/-- C5: `flush_queue` drains exactly the calls queued at flush start,
re-invokes `call` for each in FIFO (enqueue) order, and returns one result
per drained call in that order; calls enqueued during the flush are never
processed within the same flush (the result list's length equals the
snapshot's length, so a single flush terminates even when every replayed
call re-queues). -/
theorem C5_flush_fifo (c : OfflineFallbackChain) (now : Int) (tool : String)
    (q : List QueuedCall)
    (hq : assocGet c.queues tool = some q)
    (hreg : Registered c tool) :
    ∃ c' rs, OfflineFallbackChain.flush_queue c now tool = some (c', rs) ∧
      rs.length = q.length ∧
      ∀ i (hi : i < q.length), ∃ cmid c2 res,
        OfflineFallbackChain.replay
            { c with queues := assocSet c.queues tool [] } now tool
            (q.take i) = some (cmid, rs.take i) ∧
        rs.get? i = some res ∧
        OfflineFallbackChain.call cmid now tool (q.get ⟨i, hi⟩).args
          (q.get ⟨i, hi⟩).kwargs = some (c2, res) := by
  have hreg0 : Registered { c with queues := assocSet c.queues tool [] } tool :=
    registered_set_queues c tool tool [] hreg
  obtain ⟨cend, rs, hrep, hlen, -⟩ :=
    replay_spec now tool q { c with queues := assocSet c.queues tool [] } hreg0
  have hflush : OfflineFallbackChain.flush_queue c now tool = some (cend, rs) := by
    unfold OfflineFallbackChain.flush_queue
    simp only [hq]
    exact hrep
  refine ⟨cend, rs, hflush, hlen, ?_⟩
  intro i hi
  have hsplit : q.take i ++ (q.get ⟨i, hi⟩ :: q.drop (i + 1)) = q := by
    rw [List.get_cons_drop]
    exact List.take_append_drop i q
  obtain ⟨cmid, rs1, hrep1, hlen1, hregmid⟩ :=
    replay_spec now tool (q.take i)
      { c with queues := assocSet c.queues tool [] } hreg0
  obtain ⟨c2, res, hcall, hpres2⟩ :=
    call_total_registered cmid now tool (q.get ⟨i, hi⟩).args
      (q.get ⟨i, hi⟩).kwargs hregmid
  obtain ⟨cfin, rs3, hrep3, hlen3, -⟩ :=
    replay_spec now tool (q.drop (i + 1)) c2 (hpres2 tool hregmid)
  have hfull : OfflineFallbackChain.replay
      { c with queues := assocSet c.queues tool [] } now tool q =
      some (cfin, rs1 ++ (res :: rs3)) := by
    rw [← hsplit, replay_append now tool (q.take i)
      (q.get ⟨i, hi⟩ :: q.drop (i + 1))]
    rw [hrep1]
    dsimp only
    have econs : OfflineFallbackChain.replay cmid now tool
        (q.get ⟨i, hi⟩ :: q.drop (i + 1)) =
        (match OfflineFallbackChain.call cmid now tool (q.get ⟨i, hi⟩).args
            (q.get ⟨i, hi⟩).kwargs with
         | none => none
         | some (c', r) =>
           match OfflineFallbackChain.replay c' now tool (q.drop (i + 1)) with
           | none => none
           | some (c'', rs) => some (c'', r :: rs)) := rfl
    rw [econs, hcall]
    dsimp only
    rw [hrep3]
  have huniq := hrep.symm.trans hfull
  injection huniq with hpair
  rw [Prod.mk.injEq] at hpair
  obtain ⟨-, hrs⟩ := hpair
  have hlen1' : rs1.length = i := by
    rw [hlen1, List.length_take]
    exact min_eq_left (le_of_lt hi)
  refine ⟨cmid, c2, res, ?_, ?_, hcall⟩
  · rw [hrs, List.take_left' hlen1']
    exact hrep1
  · rw [hrs, List.get?_append_right (le_of_eq hlen1'), hlen1']
    simp

/-- Failing primary used by the C5 witness chain. -/
def c5_primary : ToolFn := fun _ _ => Except.error "down"

/-- Two calls queued for tool "t" in the C5 witness. -/
def c5_q : List QueuedCall :=
  [{ tool_name := "t", args := [1], kwargs := [], queued_at := 0 },
   { tool_name := "t", args := [2], kwargs := [], queued_at := 0 }]

/-- Offline chain whose queue for "t" already holds the two calls; every
replayed call re-queues, so the flush must still terminate with exactly two
results. -/
def c5_chain : OfflineFallbackChain :=
  { (OfflineFallbackChain.init OnlineState.OFFLINE).register_tool
      { tool_name := "t" } c5_primary none with
    queues := [("t", c5_q)] }

/-- Witness for C5: flushing the two-element queue of a still-failing
offline tool returns exactly two results (no infinite loop from the
re-queued calls). -/
theorem C5_flush_fifo_witness :
    (OfflineFallbackChain.flush_queue c5_chain 0 "t").map
      (fun p => p.2.length) = some 2 := by
  obtain ⟨c', rs, hflush, hlen, -⟩ :=
    C5_flush_fifo c5_chain 0 "t" c5_q rfl ⟨rfl, rfl, rfl, rfl⟩
  rw [hflush, Option.map_some', hlen]
  rfl
